import Mathlib

/-!
# kNet `Event` (src/unix/UnixEvent.cpp)

A shallow embedding of the pipe-backed event object of kNet and of the part of
the operating system it talks to.

The two descriptors `fd[0]`, `fd[1]` and the tag `type` are the `Event`.  The
kernel is represented by the one object the event can observe: the byte channel
its read end refers to (`Chan`), i.e. the number of unread bytes and the
`O_NONBLOCK` flag of each end.  Every system call the source makes is a function
on that state; what the kernel decides on its own (which descriptors `pipe`
hands out, whether a call fails and with which `errno`) is an explicit argument
of the operation.  `LOG(LogError, ...)` appends to `World.log`, and every system
call performed is appended, with its result, to `World.trace`.

The model is single-threaded: no other thread reads or writes the channel while
an operation runs.
-/

namespace kNet

/-- Modelled from the spec: the enumeration `EventWaitType` is declared in
`kNet/Event.h`, which is not part of the sources at hand; UnixEvent.cpp names
only `EventWaitDummy`.  The spec (data model, `kind`) lists three roles: a
manually signaled event, an event wrapping a caller-supplied read source, and a
dummy placeholder. -/
inductive EventWaitType where
  | EventWaitDummy
  | EventWaitSignal
  | EventWaitRead
  deriving DecidableEq, Repr

/-- The value of `errno` meaning "the non-blocking call would block". -/
def EAGAIN : Int := 11

/-- One constructor per `LOG(LogError, ...)` site of UnixEvent.cpp, carrying the
`errno` that the message prints where it prints one. -/
inductive LogMsg where
  | createPipeFailed (errno : Int)
  | createFcntl0Failed (errno : Int)
  | createFcntl1Failed (errno : Int)
  | resetNull
  | resetReadFailed (errno : Int)
  | setNull
  | setReadOnly
  | setWriteFailed (errno : Int)
  | waitSelectFailed (errno : Int)
  deriving DecidableEq, Repr

/-- A system call performed by the event, with the descriptor it was applied to
and the value it returned (`errno` is recorded for `read`, where the source
inspects it). -/
inductive SysCall where
  | pipe (ret : Int)
  | fcntl (fd : Int) (ret : Int)
  | close (fd : Int)
  | read (fd : Int) (ret : Int) (errno : Int)
  | write (fd : Int) (ret : Int)
  | select (fd : Int) (tv_sec tv_usec : Nat) (ret : Int)
  deriving DecidableEq, Repr

/-- The data members of `class Event`: `fd[0]` (read end), `fd[1]` (write end)
and `type`.  The absent descriptor is `-1`. -/
structure Event where
  fd0 : Int
  fd1 : Int
  type : EventWaitType
  deriving DecidableEq, Repr

/-- The kernel object behind the read end: `pending` unread bytes, and whether
`O_NONBLOCK` is set on the read and on the write descriptor. -/
structure Chan where
  pending : Nat
  nonblockRead : Bool
  nonblockWrite : Bool
  deriving DecidableEq, Repr

/-- An event together with the channel its read end refers to, the diagnostic
sink and the system-call trace. -/
structure World where
  ev : Event
  chan : Chan
  log : List LogMsg
  trace : List SysCall
  deriving DecidableEq, Repr

/-! ## The system calls -/

/-- What the kernel answers to `pipe(fd)`: failure with an `errno`, or two fresh
descriptors (descriptors are non-negative, hence never `-1`). -/
inductive PipeResult where
  | fail (errno : Int)
  | ok (rd wr : Nat)
  deriving DecidableEq, Repr

/-- The channel of a freshly made pipe: empty, both ends in blocking mode. -/
def newPipe : Chan := { pending := 0, nonblockRead := false, nonblockWrite := false }

/-- A call of `read(fd[0], &val, 1)`.  `fault = some e` is a failure injected by
the kernel: the call returns `-1` with `errno = e` and consumes nothing.
Otherwise a pending byte is consumed and `1` is returned; on an empty channel a
non-blocking read end returns `-1` with `EAGAIN`, and a blocking read end never
returns (`none`), as no other thread will write.  The components of the result
are the return value, `errno` (meaningful when the return value is `-1`) and the
channel afterwards. -/
def sysRead (c : Chan) (fault : Option Int) : Option (Int × Int × Chan) :=
  match fault with
  | some e => some (-1, e, c)
  | none =>
    if 0 < c.pending then some (1, 0, { c with pending := c.pending - 1 })
    else if c.nonblockRead then some (-1, EAGAIN, c)
    else none

/-- A call of `write(fd[1], &val, 1)`: `fault = some e` is a failure (`-1`,
`errno = e`, nothing written); otherwise one byte is appended and `1` returned. -/
def sysWrite (c : Chan) (fault : Option Int) : Int × Int × Chan :=
  match fault with
  | some e => (-1, e, c)
  | none => (1, 0, { c with pending := c.pending + 1 })

/-- A call of `select` on the read end alone with timeout `tv`: `-1` on an
injected failure, `1` when the channel holds unread data, and `0` (timeout)
otherwise - nothing is written during the wait.  The call consumes nothing. -/
def sysSelect (c : Chan) (fault : Option Int) : Int × Int :=
  match fault with
  | some e => (-1, e)
  | none => if 0 < c.pending then (1, 0) else (0, 0)

/-! ## Construction -/

/-- The constructor `Event::Event()`. -/
def Event.new : Event := { fd0 := -1, fd1 := -1, type := EventWaitType.EventWaitDummy }

/-- The constructor `Event::Event(int fd_, EventWaitType eventType)`. -/
def Event.ofSocket (fd_ : Int) (eventType : EventWaitType) : Event :=
  { fd0 := fd_, fd1 := -1, type := eventType }

/-- The method `Event::IsNull`. -/
def Event.IsNull (e : Event) : Bool := decide (e.fd0 = -1)

/-- The method `Event::IsValid`. -/
def Event.IsValid (e : Event) : Bool := !e.IsNull

/-! ## Lifecycle -/

/-- The method `Event::Create`.  `p` is the kernel's answer to `pipe`, `f0` and
`f1` the `errno` of a failing `fcntl` on the read and on the write end (`none`:
the call succeeds and sets `O_NONBLOCK`). -/
def Event.Create (w : World) (type_ : EventWaitType) (p : PipeResult)
    (f0 f1 : Option Int) : World :=
  let w1 : World := { w with ev := { w.ev with type := type_ } }
  match p with
  | PipeResult.fail e =>
    { w1 with trace := w1.trace ++ [SysCall.pipe (-1)],
              log := w1.log ++ [LogMsg.createPipeFailed e] }
  | PipeResult.ok rd wr =>
    let w2 : World :=
      { w1 with ev := { w1.ev with fd0 := (rd : Int), fd1 := (wr : Int) },
                chan := newPipe,
                trace := w1.trace ++ [SysCall.pipe 0] }
    match f0 with
    | some e =>
      { w2 with trace := w2.trace ++ [SysCall.fcntl w2.ev.fd0 (-1)],
                log := w2.log ++ [LogMsg.createFcntl0Failed e] }
    | none =>
      let w3 : World :=
        { w2 with chan := { w2.chan with nonblockRead := true },
                  trace := w2.trace ++ [SysCall.fcntl w2.ev.fd0 0] }
      match f1 with
      | some e =>
        { w3 with trace := w3.trace ++ [SysCall.fcntl w3.ev.fd1 (-1)],
                  log := w3.log ++ [LogMsg.createFcntl1Failed e] }
      | none =>
        { w3 with chan := { w3.chan with nonblockWrite := true },
                  trace := w3.trace ++ [SysCall.fcntl w3.ev.fd1 0] }

/-- The function `CreateNewEvent`, run on an empty log and trace: `none` stands
for the failing `assert(e.IsValid())`. -/
def CreateNewEvent (c : Chan) (type : EventWaitType) (p : PipeResult)
    (f0 f1 : Option Int) : Option World :=
  let e : World := { ev := Event.new, chan := c, log := [], trace := [] }
  let e1 := Event.Create e type p f0 f1
  if e1.ev.IsValid then some e1 else none

/-- The method `Event::Close`. -/
def Event.Close (w : World) : World :=
  let w1 : World :=
    if w.ev.fd0 ≠ -1 then
      { w with trace := w.trace ++ [SysCall.close w.ev.fd0],
               ev := { w.ev with fd0 := -1 } }
    else w
  if w1.ev.fd1 ≠ -1 then
    { w1 with trace := w1.trace ++ [SysCall.close w1.ev.fd1],
              ev := { w1.ev with fd1 := -1 } }
  else w1

/-! ## Signal control -/

/-- The loop `while(ret != -1) { ret = read(...); if (ret == -1 && errno != EAGAIN) LOG(...); }`
of `Event::Reset`, entered with the current value of `ret`.  `rf i` is the
fault the kernel injects into the `i`-th read still to come.  The first argument
bounds the number of iterations; `none` means the loop did not finish within
that bound, or that a read never returned. -/
def Event.resetLoop (rf : Nat → Option Int) : Nat → Nat → Int → World → Option World
  | 0, _, ret, w => if ret ≠ -1 then none else some w
  | fuel + 1, i, ret, w =>
    if ret ≠ -1 then
      match sysRead w.chan (rf i) with
      | none => none
      | some (ret1, errno, c) =>
        let w1 : World :=
          { w with chan := c, trace := w.trace ++ [SysCall.read w.ev.fd0 ret1 errno] }
        let w2 : World :=
          if ret1 = -1 ∧ errno ≠ EAGAIN then
            { w1 with log := w1.log ++ [LogMsg.resetReadFailed errno] }
          else w1
        Event.resetLoop rf fuel (i + 1) ret1 w2
    else some w

/-- The method `Event::Reset`, with a bound `fuel` on the iterations of its loop. -/
def Event.Reset (w : World) (fuel : Nat) (rf : Nat → Option Int) : Option World :=
  if w.ev.IsNull then
    some { w with log := w.log ++ [LogMsg.resetNull] }
  else
    Event.resetLoop rf fuel 0 0 w

/-- The method `Event::Set`.  `rfault` and `wfault` are the faults injected into
its one `read` and its one `write`; `none` as a result means that the `read`
never returned. -/
def Event.Set (w : World) (rfault wfault : Option Int) : Option World :=
  if w.ev.IsNull then
    some { w with log := w.log ++ [LogMsg.setNull] }
  else if w.ev.fd1 = -1 then
    some { w with log := w.log ++ [LogMsg.setReadOnly] }
  else
    match sysRead w.chan rfault with
    | none => none
    | some (r, errno, c) =>
      let w1 : World :=
        { w with chan := c, trace := w.trace ++ [SysCall.read w.ev.fd0 r errno] }
      match sysWrite w1.chan wfault with
      | (ret, errno1, c1) =>
        let w2 : World :=
          { w1 with chan := c1, trace := w1.trace ++ [SysCall.write w1.ev.fd1 ret] }
        if ret = -1 then
          some { w2 with log := w2.log ++ [LogMsg.setWriteFailed errno1] }
        else some w2

/-! ## Observation -/

/-- The field `tv.tv_sec = msecs / 1000` of `Event::Wait`. -/
def tv_sec (msecs : Nat) : Nat := msecs / 1000

/-- The field `tv.tv_usec = (msecs - tv.tv_sec * 1000) * 1000` of `Event::Wait`. -/
def tv_usec (msecs : Nat) : Nat := (msecs - tv_sec msecs * 1000) * 1000

/-- The method `Event::Wait`; `pf` is the fault injected into `select`. -/
def Event.Wait (w : World) (msecs : Nat) (pf : Option Int) : World × Bool :=
  if w.ev.IsNull then (w, false)
  else
    match sysSelect w.chan pf with
    | (ret, errno) =>
      let w1 : World :=
        { w with trace := w.trace ++ [SysCall.select w.ev.fd0 (tv_sec msecs) (tv_usec msecs) ret] }
      if ret = -1 then
        ({ w1 with log := w1.log ++ [LogMsg.waitSelectFailed errno] }, false)
      else (w1, decide (ret ≠ 0))

/-- The method `Event::Test`. -/
def Event.Test (w : World) (pf : Option Int) : World × Bool :=
  if w.ev.IsNull then (w, false)
  else Event.Wait w 0 pf

/-! ## Sequences of calls -/

/-- A call made by the one thread that uses the event after `Create`.  The
`read` inside `Set` is given no injected fault: it fails only when the channel
is empty. -/
inductive Call where
  | set (wfault : Option Int)
  | reset (fuel : Nat) (rf : Nat → Option Int)
  | test (pf : Option Int)
  | wait (msecs : Nat) (pf : Option Int)

/-- The world after one call (`none`: the call does not return). -/
def Call.run (w : World) : Call → Option World
  | Call.set wfault => Event.Set w none wfault
  | Call.reset fuel rf => Event.Reset w fuel rf
  | Call.test pf => some (Event.Test w pf).1
  | Call.wait msecs pf => some (Event.Wait w msecs pf).1

/-- The world after a sequence of calls, made one after the other. -/
def runCalls : World → List Call → Option World
  | w, [] => some w
  | w, c :: cs =>
    match c.run w with
    | none => none
    | some w1 => runCalls w1 cs

/-- Whether the bound of every `reset` in the sequence is at least `n`. -/
def resetFuelAtLeast (n : Nat) : List Call → Bool
  | [] => true
  | Call.reset fuel _ :: cs => decide (n ≤ fuel) && resetFuelAtLeast n cs
  | _ :: cs => resetFuelAtLeast n cs

/-- The world after `n` consecutive calls of `Set` whose reads and writes are
not failed by the kernel. -/
def setN : Nat → World → Option World
  | 0, w => some w
  | n + 1, w =>
    match Event.Set w none none with
    | none => none
    | some w1 => setN n w1

/-- An observation: `Test()` or `Wait(msecs)`, with the fault injected into its
poll. -/
inductive Obs where
  | test (pf : Option Int)
  | wait (msecs : Nat) (pf : Option Int)
  deriving DecidableEq, Repr

/-- The fault injected into the poll of an observation. -/
def Obs.pf : Obs → Option Int
  | Obs.test pf => pf
  | Obs.wait _ pf => pf

/-- The world after an observation, and the value it returned. -/
def Obs.run (w : World) : Obs → World × Bool
  | Obs.test pf => Event.Test w pf
  | Obs.wait msecs pf => Event.Wait w msecs pf

/-- The world after a sequence of observations, and the values they returned, in
order. -/
def observe : World → List Obs → World × List Bool
  | w, [] => (w, [])
  | w, o :: os =>
    let r := o.run w
    let rest := observe r.1 os
    (rest.1, r.2 :: rest.2)

/-! ## Basic facts about the system calls and the observers -/

theorem Wait_ev (w : World) (msecs : Nat) (pf : Option Int) :
    (Event.Wait w msecs pf).1.ev = w.ev ∧ (Event.Wait w msecs pf).1.chan = w.chan := by
  unfold Event.Wait sysSelect
  cases pf <;> by_cases hn : w.ev.IsNull = true <;> by_cases hp : 0 < w.chan.pending <;>
    simp [hn, hp]

theorem Test_eq_Wait (w : World) (pf : Option Int) :
    Event.Test w pf = Event.Wait w 0 pf := by
  unfold Event.Test
  by_cases hn : w.ev.IsNull = true
  · simp [hn, Event.Wait]
  · simp [hn]

theorem Wait_result (w : World) (msecs : Nat) (pf : Option Int) :
    (Event.Wait w msecs pf).2 =
      (!w.ev.IsNull && decide (pf = none) && decide (0 < w.chan.pending)) := by
  unfold Event.Wait sysSelect
  cases pf <;> by_cases hn : w.ev.IsNull = true <;> by_cases hp : 0 < w.chan.pending <;>
    simp [hn, hp]

/-! ## The drain loop of `Reset` -/

theorem resetLoop_exit (rf : Nat → Option Int) (fuel i : Nat) (w : World) :
    Event.resetLoop rf fuel i (-1) w = some w := by
  cases fuel <;> simp [Event.resetLoop]

/-- The loop reads the pending bytes one by one until the first read that
returns `-1`: here the read number `j`, into which the kernel injects a
failure with `errno = e` while at least `j` bytes are pending. -/
theorem resetLoop_fault (rf : Nat → Option Int) :
    ∀ (j fuel i : Nat) (ret : Int) (w : World) (e : Int),
      ret ≠ -1 → j ≤ w.chan.pending → j < fuel →
      (∀ m, m < j → rf (i + m) = none) → rf (i + j) = some e →
      Event.resetLoop rf fuel i ret w = some
        { w with chan := { w.chan with pending := w.chan.pending - j },
                 trace := w.trace ++ List.replicate j (SysCall.read w.ev.fd0 1 0)
                            ++ [SysCall.read w.ev.fd0 (-1) e],
                 log := w.log ++ (if e = EAGAIN then [] else [LogMsg.resetReadFailed e]) } := by
  intro j
  induction j with
  | zero =>
    intro fuel i ret w e hret _ hfuel _ hrf
    obtain ⟨f, rfl⟩ : ∃ f, fuel = f + 1 := ⟨fuel - 1, by omega⟩
    simp only [Nat.add_zero] at hrf
    by_cases he : e = EAGAIN
    · simp [Event.resetLoop, hret, hrf, sysRead, resetLoop_exit, he]
    · simp [Event.resetLoop, hret, hrf, sysRead, resetLoop_exit, he]
  | succ j ih =>
    intro fuel i ret w e hret hpend hfuel hnone hrf
    obtain ⟨f, rfl⟩ : ∃ f, fuel = f + 1 := ⟨fuel - 1, by omega⟩
    have h0 : rf i = none := by simpa using hnone 0 (by omega)
    have hpos : 0 < w.chan.pending := by omega
    have hstep := ih f (i + 1) 1
      { w with chan := { w.chan with pending := w.chan.pending - 1 },
               trace := w.trace ++ [SysCall.read w.ev.fd0 1 0] } e (by decide)
      (by simp; omega) (by omega)
      (fun m hm => by
        have := hnone (m + 1) (by omega)
        rwa [show i + 1 + m = i + (m + 1) by omega])
      (by rwa [show i + 1 + j = i + (j + 1) by omega])
    simp only [Event.resetLoop, hret, ne_eq, not_false_eq_true, if_true, h0, sysRead, hpos]
    simp only [show ¬ ((1 : Int) = -1 ∧ (0 : Int) ≠ EAGAIN) by decide, if_false]
    rw [hstep]
    simp [List.replicate_succ, Nat.sub_sub, Nat.add_comm]

/-- With no injected failure the loop reads all pending bytes of a non-blocking
read end and ends on the read that would block. -/
theorem resetLoop_drain (rf : Nat → Option Int) :
    ∀ (k fuel i : Nat) (ret : Int) (w : World),
      ret ≠ -1 → w.chan.pending = k → w.chan.nonblockRead = true → k < fuel →
      (∀ m, m ≤ k → rf (i + m) = none) →
      Event.resetLoop rf fuel i ret w = some
        { w with chan := { w.chan with pending := 0 },
                 trace := w.trace ++ List.replicate k (SysCall.read w.ev.fd0 1 0)
                            ++ [SysCall.read w.ev.fd0 (-1) EAGAIN] } := by
  intro k
  induction k with
  | zero =>
    intro fuel i ret w hret hpend hnb hfuel hnone
    obtain ⟨f, rfl⟩ : ∃ f, fuel = f + 1 := ⟨fuel - 1, by omega⟩
    have h0 : rf i = none := by simpa using hnone 0 (by omega)
    simp [Event.resetLoop, hret, h0, sysRead, hpend, hnb, resetLoop_exit]
    rw [← hpend, ← hnb]
  | succ k ih =>
    intro fuel i ret w hret hpend hnb hfuel hnone
    obtain ⟨f, rfl⟩ : ∃ f, fuel = f + 1 := ⟨fuel - 1, by omega⟩
    have h0 : rf i = none := by simpa using hnone 0 (by omega)
    have hpos : 0 < w.chan.pending := by omega
    have hstep := ih f (i + 1) 1
      { w with chan := { w.chan with pending := w.chan.pending - 1 },
               trace := w.trace ++ [SysCall.read w.ev.fd0 1 0] } (by decide)
      (by simp; omega) hnb (by omega)
      (fun m hm => by
        have := hnone (m + 1) (by omega)
        rwa [show i + 1 + m = i + (m + 1) by omega])
    simp only [Event.resetLoop, hret, ne_eq, not_false_eq_true, if_true, h0, sysRead, hpos]
    simp only [show ¬ ((1 : Int) = -1 ∧ (0 : Int) ≠ EAGAIN) by decide, if_false]
    rw [hstep]
    simp [List.replicate_succ]

/-- Whatever failures the kernel injects, the loop leaves the event alone, never
adds to the channel and keeps the mode of its ends. -/
theorem resetLoop_frame (rf : Nat → Option Int) :
    ∀ (fuel i : Nat) (ret : Int) (w w1 : World),
      Event.resetLoop rf fuel i ret w = some w1 →
      w1.ev = w.ev ∧ w1.chan.pending ≤ w.chan.pending ∧
      w1.chan.nonblockRead = w.chan.nonblockRead := by
  intro fuel
  induction fuel with
  | zero =>
    intro i ret w w1 h
    by_cases hret : ret = -1
    · simp [Event.resetLoop, hret] at h
      subst h
      simp
    · simp [Event.resetLoop, hret] at h
  | succ f ih =>
    intro i ret w w1 h
    by_cases hret : ret = -1
    · simp [Event.resetLoop, hret] at h
      subst h
      simp
    · simp only [Event.resetLoop, hret, ne_eq, not_false_eq_true, if_true] at h
      cases hr : sysRead w.chan (rf i) with
      | none => simp [hr] at h
      | some r =>
        obtain ⟨ret1, errno, c⟩ := r
        simp only [hr] at h
        have hc : c.pending ≤ w.chan.pending ∧ c.nonblockRead = w.chan.nonblockRead := by
          unfold sysRead at hr
          cases hf : rf i with
          | some e =>
            simp [hf] at hr
            obtain ⟨_, _, rfl⟩ := hr
            simp
          | none =>
            by_cases hp : 0 < w.chan.pending
            · simp [hf, hp] at hr
              obtain ⟨_, _, rfl⟩ := hr
              simp
            · by_cases hb : w.chan.nonblockRead = true
              · simp [hf, hp, hb] at hr
                obtain ⟨_, _, rfl⟩ := hr
                simp
              · simp [hf, hp, hb] at hr
        by_cases hl : ret1 = -1 ∧ errno ≠ EAGAIN
        · have := ih _ _ _ _ (by simpa [hl] using h)
          simpa using ⟨this.1, le_trans this.2.1 hc.1, this.2.2.trans hc.2⟩
        · have := ih _ _ _ _ (by simpa [hl] using h)
          simpa using ⟨this.1, le_trans this.2.1 hc.1, this.2.2.trans hc.2⟩

/-- On a non-blocking read end the loop finishes within `pending + 1`
iterations, whatever failures the kernel injects. -/
theorem resetLoop_total (rf : Nat → Option Int) :
    ∀ (fuel i : Nat) (ret : Int) (w : World),
      w.chan.nonblockRead = true → w.chan.pending < fuel →
      ∃ w1, Event.resetLoop rf fuel i ret w = some w1 := by
  intro fuel
  induction fuel with
  | zero => intro i ret w _ h; omega
  | succ f ih =>
    intro i ret w hnb hfuel
    by_cases hret : ret = -1
    · exact ⟨w, by simp [Event.resetLoop, hret]⟩
    · simp only [Event.resetLoop, hret, ne_eq, not_false_eq_true, if_true]
      cases hf : rf i with
      | some e =>
        by_cases he : e = EAGAIN <;> simp [sysRead, resetLoop_exit, he]
      | none =>
        by_cases hp : 0 < w.chan.pending
        · simp only [sysRead, hp, if_true]
          simp only [show ¬ ((1 : Int) = -1 ∧ (0 : Int) ≠ EAGAIN) by decide, if_false]
          exact ih _ _ _ (by simpa using hnb) (by simp; omega)
        · simp [sysRead, hp, hnb, resetLoop_exit]

/-! ## `Set` on a manual event -/

/-- On a manual event with a non-blocking read end, a `Set()` whose read is not
failed by the kernel returns; it takes one unit off the channel if there is one
and adds one unless the write fails. -/
theorem Set_manual (w : World) (wfault : Option Int)
    (h0 : w.ev.fd0 ≠ -1) (h1 : w.ev.fd1 ≠ -1) (hnb : w.chan.nonblockRead = true) :
    ∃ w1, Event.Set w none wfault = some w1 ∧ w1.ev = w.ev ∧
      w1.chan.nonblockRead = true ∧
      w1.chan.pending = (w.chan.pending - 1) + (if wfault = none then 1 else 0) := by
  have hn : w.ev.IsNull = false := by simpa [Event.IsNull] using h0
  unfold Event.Set sysRead sysWrite
  cases wfault <;> by_cases hp : 0 < w.chan.pending <;> simp [hn, h1, hp, hnb] <;> omega

/-- On a manual event with at least one pending unit, a `Set()` whose read is
not failed by the kernel returns whatever the mode of the read end: its read
finds a unit to consume. -/
theorem Set_manual_signaled (w : World) (wfault : Option Int)
    (h0 : w.ev.fd0 ≠ -1) (h1 : w.ev.fd1 ≠ -1) (hp : 1 ≤ w.chan.pending) :
    ∃ w1, Event.Set w none wfault = some w1 ∧ w1.ev = w.ev ∧
      w1.chan.pending = (w.chan.pending - 1) + (if wfault = none then 1 else 0) := by
  have hn : w.ev.IsNull = false := by simpa [Event.IsNull] using h0
  have hpos : 0 < w.chan.pending := by omega
  unfold Event.Set sysRead sysWrite
  cases wfault <;> simp [hn, h1, hpos]

/-- On a valid event whose read end is blocking, a `Reset()` whose reads are
not failed by the kernel never leaves its loop, whatever the bound: after the
pending units the next read does not return. -/
theorem resetLoop_blocks (rf : Nat → Option Int) (hrf : ∀ m, rf m = none) :
    ∀ (fuel i : Nat) (ret : Int) (w : World),
      ret ≠ -1 → w.chan.nonblockRead = false →
      Event.resetLoop rf fuel i ret w = none := by
  intro fuel
  induction fuel with
  | zero => intro i ret w hret _; simp [Event.resetLoop, hret]
  | succ f ih =>
    intro i ret w hret hb
    simp only [Event.resetLoop, hret, ne_eq, not_false_eq_true, if_true, hrf i]
    by_cases hp : 0 < w.chan.pending
    · simp only [sysRead, hp, if_true]
      simp only [show ¬ ((1 : Int) = -1 ∧ (0 : Int) ≠ EAGAIN) by decide, if_false]
      exact ih _ _ _ (by decide) (by simpa using hb)
    · simp [sysRead, hp, hb]

/-- Any number `n` of consecutive fault-free `Set()` calls on a manual event
with a non-blocking read end returns, and from the first call on the channel
holds `max k 1` units, `k` being the number it held at the start. -/
theorem setN_spec : ∀ (n : Nat) (w : World),
    w.ev.fd0 ≠ -1 → w.ev.fd1 ≠ -1 → w.chan.nonblockRead = true →
    ∃ wn, setN n w = some wn ∧ wn.ev = w.ev ∧ wn.chan.nonblockRead = true ∧
      wn.chan.pending = if n = 0 then w.chan.pending else max w.chan.pending 1 := by
  intro n
  induction n with
  | zero => intro w _ _ hnb; exact ⟨w, rfl, rfl, hnb, by simp⟩
  | succ n ih =>
    intro w h0 h1 hnb
    obtain ⟨w1, hs, hev, hnb1, hp1⟩ := Set_manual w none h0 h1 hnb
    obtain ⟨wn, hsn, hevn, hnbn, hpn⟩ := ih w1 (by rw [hev]; exact h0) (by rw [hev]; exact h1) hnb1
    refine ⟨wn, by simp [setN, hs, hsn], hevn.trans hev, hnbn, ?_⟩
    rw [hpn, hp1]
    by_cases hz : n = 0 <;> simp [hz] <;> omega

/-- One call preserves "the read end is non-blocking and at most one unit is
pending" and leaves the event alone. -/
theorem Call_run_inv (c : Call) (w w1 : World) (hnb : w.chan.nonblockRead = true)
    (hp : w.chan.pending ≤ 1) (h : c.run w = some w1) :
    w1.ev = w.ev ∧ w1.chan.nonblockRead = true ∧ w1.chan.pending ≤ 1 := by
  cases c with
  | set wfault =>
    simp only [Call.run] at h
    by_cases h0 : w.ev.fd0 = -1
    · simp [Event.Set, Event.IsNull, h0] at h
      subst h
      exact ⟨rfl, hnb, hp⟩
    · by_cases h1 : w.ev.fd1 = -1
      · simp [Event.Set, Event.IsNull, h0, h1] at h
        subst h
        exact ⟨rfl, hnb, hp⟩
      · obtain ⟨w2, hs, hev, hnb2, hp2⟩ := Set_manual w wfault h0 h1 hnb
        rw [hs] at h
        cases h
        refine ⟨hev, hnb2, ?_⟩
        rw [hp2]
        split <;> omega
  | reset fuel rf =>
    simp only [Call.run] at h
    by_cases h0 : w.ev.IsNull = true
    · simp [Event.Reset, h0] at h
      subst h
      exact ⟨rfl, hnb, hp⟩
    · simp only [Event.Reset, h0] at h
      have := resetLoop_frame rf fuel 0 0 w w1 (by simpa using h)
      exact ⟨this.1, by rw [this.2.2]; exact hnb, le_trans this.2.1 hp⟩
  | test pf =>
    simp only [Call.run, Option.some.injEq] at h
    subst h
    rw [Test_eq_Wait]
    have := Wait_ev w 0 pf
    exact ⟨this.1, by rw [this.2]; exact hnb, by rw [this.2]; exact hp⟩
  | wait msecs pf =>
    simp only [Call.run, Option.some.injEq] at h
    subst h
    have := Wait_ev w msecs pf
    exact ⟨this.1, by rw [this.2]; exact hnb, by rw [this.2]; exact hp⟩

/-- One call returns when the read end is non-blocking, at most one unit is
pending, and the bound of a `reset` is at least 2. -/
theorem Call_run_total (c : Call) (w : World) (hnb : w.chan.nonblockRead = true)
    (hp : w.chan.pending ≤ 1) (hf : resetFuelAtLeast 2 [c] = true) :
    ∃ w1, c.run w = some w1 := by
  cases c with
  | set wfault =>
    by_cases h0 : w.ev.fd0 = -1
    · simp [Call.run, Event.Set, Event.IsNull, h0]
    · by_cases h1 : w.ev.fd1 = -1
      · simp [Call.run, Event.Set, Event.IsNull, h0, h1]
      · obtain ⟨w2, hs, _⟩ := Set_manual w wfault h0 h1 hnb
        exact ⟨w2, hs⟩
  | reset fuel rf =>
    simp [resetFuelAtLeast] at hf
    by_cases h0 : w.ev.IsNull = true
    · simp [Call.run, Event.Reset, h0]
    · simp only [Call.run, Event.Reset, h0]
      exact resetLoop_total rf fuel 0 0 w hnb (by omega)
  | test pf => exact ⟨_, rfl⟩
  | wait msecs pf => exact ⟨_, rfl⟩

theorem resetFuelAtLeast_cons (n : Nat) (c : Call) (cs : List Call) :
    resetFuelAtLeast n (c :: cs) = (resetFuelAtLeast n [c] && resetFuelAtLeast n cs) := by
  cases c <;> simp [resetFuelAtLeast]

/-- The invariant along a sequence of calls. -/
theorem runCalls_inv : ∀ (cs : List Call) (w w1 : World),
    w.chan.nonblockRead = true → w.chan.pending ≤ 1 → runCalls w cs = some w1 →
    w1.ev = w.ev ∧ w1.chan.nonblockRead = true ∧ w1.chan.pending ≤ 1 := by
  intro cs
  induction cs with
  | nil =>
    intro w w1 hnb hp h
    simp only [runCalls, Option.some.injEq] at h
    subst h
    exact ⟨rfl, hnb, hp⟩
  | cons c cs ih =>
    intro w w1 hnb hp h
    simp only [runCalls] at h
    cases hc : c.run w with
    | none => simp [hc] at h
    | some w2 =>
      simp only [hc] at h
      have h2 := Call_run_inv c w w2 hnb hp hc
      have h3 := ih w2 w1 h2.2.1 h2.2.2 h
      exact ⟨h3.1.trans h2.1, h3.2⟩

/-- A sequence of calls returns when every `reset` in it has a bound of at
least 2. -/
theorem runCalls_total : ∀ (cs : List Call) (w : World),
    w.chan.nonblockRead = true → w.chan.pending ≤ 1 → resetFuelAtLeast 2 cs = true →
    ∃ w1, runCalls w cs = some w1 := by
  intro cs
  induction cs with
  | nil => intro w _ _ _; exact ⟨w, rfl⟩
  | cons c cs ih =>
    intro w hnb hp hf
    rw [resetFuelAtLeast_cons, Bool.and_eq_true] at hf
    obtain ⟨w2, hc⟩ := Call_run_total c w hnb hp hf.1
    have h2 := Call_run_inv c w w2 hnb hp hc
    obtain ⟨w1, h1⟩ := ih w2 h2.2.1 h2.2.2 hf.2
    exact ⟨w1, by simp [runCalls, hc, h1]⟩

/-! ## Sequences of observations -/

theorem Obs_run_frame (o : Obs) (w : World) :
    (o.run w).1.ev = w.ev ∧ (o.run w).1.chan = w.chan := by
  cases o with
  | test pf => simp only [Obs.run]; rw [Test_eq_Wait]; exact Wait_ev w 0 pf
  | wait msecs pf => exact Wait_ev w msecs pf

theorem observe_frame : ∀ (os : List Obs) (w : World),
    (observe w os).1.ev = w.ev ∧ (observe w os).1.chan = w.chan := by
  intro os
  induction os with
  | nil => intro w; exact ⟨rfl, rfl⟩
  | cons o os ih =>
    intro w
    have h1 := Obs_run_frame o w
    have h2 := ih (o.run w).1
    simp only [observe]
    exact ⟨h2.1.trans h1.1, h2.2.trans h1.2⟩

theorem Obs_run_result (o : Obs) (w : World) :
    (o.run w).2 = (!w.ev.IsNull && decide (o.pf = none) && decide (0 < w.chan.pending)) := by
  cases o with
  | test pf => simp only [Obs.run, Obs.pf]; rw [Test_eq_Wait, Wait_result]
  | wait msecs pf => simp only [Obs.run, Obs.pf]; rw [Wait_result]

/-- On a valid event with a pending unit, observations whose polls do not fail
all return true. -/
theorem observe_signaled : ∀ (os : List Obs) (w : World),
    w.ev.fd0 ≠ -1 → 0 < w.chan.pending → (∀ o, o ∈ os → o.pf = none) →
    (observe w os).2 = List.replicate os.length true := by
  intro os
  induction os with
  | nil => intro w _ _ _; rfl
  | cons o os ih =>
    intro w h0 hp hpf
    have h1 := Obs_run_frame o w
    have h2 := ih (o.run w).1 (by rw [h1.1]; exact h0) (by rw [h1.2]; exact hp)
      (fun o1 ho1 => hpf o1 (List.mem_cons_of_mem _ ho1))
    have h3 : (o.run w).2 = true := by
      rw [Obs_run_result]
      simp [Event.IsNull, h0, hp, hpf o (List.mem_cons_self _ _)]
    simp only [observe, h2, h3, List.length_cons, List.replicate_succ]

/-! ## The claims -/

/-- C4: when `Create(kind)` succeeds (the pipe is allocated and both `fcntl`
calls succeed), whatever the state before, nothing is reported, both ends are
present (they are the descriptors handed out by `pipe`), `IsValid()` is true,
`IsNull()` is false, the channel is empty with both ends non-blocking, and
`Test()` returns false whatever its poll does. -/
theorem Create_success_valid_unsignaled (w : World) (kind : EventWaitType) (rd wr : Nat) :
    (Event.Create w kind (PipeResult.ok rd wr) none none).log = w.log ∧
    (Event.Create w kind (PipeResult.ok rd wr) none none).ev
      = { fd0 := (rd : Int), fd1 := (wr : Int), type := kind } ∧
    (Event.Create w kind (PipeResult.ok rd wr) none none).ev.fd0 ≠ -1 ∧
    (Event.Create w kind (PipeResult.ok rd wr) none none).ev.fd1 ≠ -1 ∧
    (Event.Create w kind (PipeResult.ok rd wr) none none).ev.IsValid = true ∧
    (Event.Create w kind (PipeResult.ok rd wr) none none).ev.IsNull = false ∧
    (Event.Create w kind (PipeResult.ok rd wr) none none).chan
      = { pending := 0, nonblockRead := true, nonblockWrite := true } ∧
    ∀ pf : Option Int,
      (Event.Test (Event.Create w kind (PipeResult.ok rd wr) none none) pf).2 = false := by
  refine ⟨?_, ?_, ?_, ?_, ?_, ?_, ?_, ?_⟩
  · simp [Event.Create]
  · simp [Event.Create]
  · simp [Event.Create]
  · simp [Event.Create]
  · simp [Event.Create, Event.IsValid, Event.IsNull]
  · simp [Event.Create, Event.IsNull]
  · simp [Event.Create, newPipe]
  · intro pf
    rw [Test_eq_Wait, Wait_result]
    simp [Event.Create, newPipe]

/-- C5: after `Close()`, whatever the state before, both ends are `-1`,
`IsNull()` is true and `IsValid()` is false.  On the closed event a further
`Close()` changes nothing at all; `Set()` and `Reset()` return having only
reported the misuse (descriptors, kind, channel and system-call trace are
unchanged, so no read or write is attempted); `Test()` and `Wait(t)` return
false and change nothing, so no poll is made. -/
theorem Close_null_and_inert (w : World) :
    (Event.Close w).ev.fd0 = -1 ∧ (Event.Close w).ev.fd1 = -1 ∧
    (Event.Close w).ev.IsNull = true ∧ (Event.Close w).ev.IsValid = false ∧
    Event.Close (Event.Close w) = Event.Close w ∧
    (∀ rfault wfault : Option Int,
      Event.Set (Event.Close w) rfault wfault
        = some { Event.Close w with log := (Event.Close w).log ++ [LogMsg.setNull] }) ∧
    (∀ (fuel : Nat) (rf : Nat → Option Int),
      Event.Reset (Event.Close w) fuel rf
        = some { Event.Close w with log := (Event.Close w).log ++ [LogMsg.resetNull] }) ∧
    (∀ pf : Option Int, Event.Test (Event.Close w) pf = (Event.Close w, false)) ∧
    (∀ (msecs : Nat) (pf : Option Int),
      Event.Wait (Event.Close w) msecs pf = (Event.Close w, false)) := by
  have h0 : (Event.Close w).ev.fd0 = -1 := by
    unfold Event.Close
    by_cases a : w.ev.fd0 = -1 <;> by_cases b : w.ev.fd1 = -1 <;> simp [a, b]
  have h1 : (Event.Close w).ev.fd1 = -1 := by
    unfold Event.Close
    by_cases a : w.ev.fd0 = -1 <;> by_cases b : w.ev.fd1 = -1 <;> simp [a, b]
  have hn : (Event.Close w).ev.IsNull = true := by simp [Event.IsNull, h0]
  refine ⟨h0, h1, hn, by simp [Event.IsValid, hn], ?_, ?_, ?_, ?_, ?_⟩
  · generalize Event.Close w = c at h0 h1
    simp [Event.Close, h0, h1]
  · intro rfault wfault
    simp [Event.Set, hn]
  · intro fuel rf
    simp [Event.Reset, hn]
  · intro pf
    simp [Event.Test, hn]
  · intro msecs pf
    simp [Event.Wait, hn]

/-- C6: on an event constructed from an external read source (write end `-1`),
`Set()` returns having only reported the misuse: descriptors, kind, channel
(nothing consumed, nothing produced) and system-call trace are unchanged.  And
for every state, if `Set()` returns with the channel changed, then both ends
were present. -/
theorem Set_readonly_rejected (fd_ : Int) (kind : EventWaitType) (c : Chan)
    (log : List LogMsg) (trace : List SysCall) (rfault wfault : Option Int)
    (w w1 : World) :
    Event.Set { ev := Event.ofSocket fd_ kind, chan := c, log := log, trace := trace }
        rfault wfault
      = some { ev := Event.ofSocket fd_ kind, chan := c,
               log := log ++ [if fd_ = -1 then LogMsg.setNull else LogMsg.setReadOnly],
               trace := trace } ∧
    (Event.Set w rfault wfault = some w1 → w1.chan ≠ w.chan →
      w.ev.fd0 ≠ -1 ∧ w.ev.fd1 ≠ -1) := by
  constructor
  · by_cases h : fd_ = -1 <;> simp [Event.Set, Event.ofSocket, Event.IsNull, h]
  · intro hs hc
    by_cases h0 : w.ev.fd0 = -1
    · simp [Event.Set, Event.IsNull, h0] at hs
      subst hs
      simp at hc
    · by_cases h1 : w.ev.fd1 = -1
      · simp [Event.Set, Event.IsNull, h0, h1] at hs
        subst hs
        simp at hc
      · exact ⟨h0, h1⟩

/-- C8: for every state and every behaviour of the poll, `Test()` returns the
same value as `Wait(0)` and leaves the same state behind. -/
theorem Test_same_as_Wait_zero (w : World) (pf : Option Int) :
    (Event.Test w pf).2 = (Event.Wait w 0 pf).2 ∧
    (Event.Test w pf).1 = (Event.Wait w 0 pf).1 := by
  rw [Test_eq_Wait]
  exact ⟨rfl, rfl⟩

/-- C10: on a null event, a `Create` whose `pipe` succeeds but whose `fcntl` on
the read end, or on the write end, fails reports the failure and returns with
both ends present, so `IsValid()` is true (and the assertion of `CreateNewEvent`
passes) although the read end, or the write end, is still blocking; a `Create`
whose `pipe` fails leaves both ends absent and `IsNull()` true (and
`CreateNewEvent` fails its assertion). -/
theorem Create_failure_may_leave_valid (c : Chan) (log : List LogMsg)
    (trace : List SysCall) (kind : EventWaitType) (rd wr : Nat) (e : Int)
    (f0 f1 : Option Int) :
    ((Event.Create { ev := Event.new, chan := c, log := log, trace := trace } kind
        (PipeResult.ok rd wr) (some e) f1).log = log ++ [LogMsg.createFcntl0Failed e] ∧
     (Event.Create { ev := Event.new, chan := c, log := log, trace := trace } kind
        (PipeResult.ok rd wr) (some e) f1).ev
        = { fd0 := (rd : Int), fd1 := (wr : Int), type := kind } ∧
     (Event.Create { ev := Event.new, chan := c, log := log, trace := trace } kind
        (PipeResult.ok rd wr) (some e) f1).ev.IsValid = true ∧
     (Event.Create { ev := Event.new, chan := c, log := log, trace := trace } kind
        (PipeResult.ok rd wr) (some e) f1).chan
        = { pending := 0, nonblockRead := false, nonblockWrite := false } ∧
     (CreateNewEvent c kind (PipeResult.ok rd wr) (some e) f1).isSome = true) ∧
    ((Event.Create { ev := Event.new, chan := c, log := log, trace := trace } kind
        (PipeResult.ok rd wr) none (some e)).log = log ++ [LogMsg.createFcntl1Failed e] ∧
     (Event.Create { ev := Event.new, chan := c, log := log, trace := trace } kind
        (PipeResult.ok rd wr) none (some e)).ev
        = { fd0 := (rd : Int), fd1 := (wr : Int), type := kind } ∧
     (Event.Create { ev := Event.new, chan := c, log := log, trace := trace } kind
        (PipeResult.ok rd wr) none (some e)).ev.IsValid = true ∧
     (Event.Create { ev := Event.new, chan := c, log := log, trace := trace } kind
        (PipeResult.ok rd wr) none (some e)).chan
        = { pending := 0, nonblockRead := true, nonblockWrite := false } ∧
     (CreateNewEvent c kind (PipeResult.ok rd wr) none (some e)).isSome = true) ∧
    ((Event.Create { ev := Event.new, chan := c, log := log, trace := trace } kind
        (PipeResult.fail e) f0 f1).log = log ++ [LogMsg.createPipeFailed e] ∧
     (Event.Create { ev := Event.new, chan := c, log := log, trace := trace } kind
        (PipeResult.fail e) f0 f1).ev = { fd0 := -1, fd1 := -1, type := kind } ∧
     (Event.Create { ev := Event.new, chan := c, log := log, trace := trace } kind
        (PipeResult.fail e) f0 f1).ev.IsNull = true ∧
     CreateNewEvent c kind (PipeResult.fail e) f0 f1 = none) := by
  refine ⟨⟨?_, ?_, ?_, ?_, ?_⟩, ⟨?_, ?_, ?_, ?_, ?_⟩, ⟨?_, ?_, ?_, ?_⟩⟩ <;>
    simp [Event.Create, CreateNewEvent, Event.new, Event.IsValid, Event.IsNull, newPipe]

/-- C7: on a valid event, for every timeout, `Wait` returns true exactly when
the poll of the read end returns a positive count, which is exactly when the
poll does not fail and the channel holds at least one pending unit; it returns
false when the poll returns `0` (timeout), and false, with the failure reported,
when the poll returns `-1`. -/
theorem Wait_true_iff_ready (w : World) (msecs : Nat) (pf : Option Int)
    (hv : w.ev.IsValid = true) :
    ((Event.Wait w msecs pf).2 = true ↔ 0 < (sysSelect w.chan pf).1) ∧
    ((Event.Wait w msecs pf).2 = true ↔ (pf = none ∧ 1 ≤ w.chan.pending)) ∧
    ((sysSelect w.chan pf).1 = 0 → (Event.Wait w msecs pf).2 = false) ∧
    ((sysSelect w.chan pf).1 = -1 →
      (Event.Wait w msecs pf).2 = false ∧
      (Event.Wait w msecs pf).1.log
        = w.log ++ [LogMsg.waitSelectFailed (sysSelect w.chan pf).2]) := by
  have hn : w.ev.IsNull = false := by simpa [Event.IsValid] using hv
  unfold Event.Wait sysSelect
  cases pf <;> by_cases hp : 0 < w.chan.pending <;> simp [hn, hp] <;> omega

/-- Witness for C7: a signaled manual event and a poll that does not fail. -/
theorem Wait_true_iff_ready_witness :
    (Event.Wait { ev := { fd0 := 3, fd1 := 4, type := EventWaitType.EventWaitSignal },
                  chan := { pending := 1, nonblockRead := true, nonblockWrite := true },
                  log := [], trace := [] } 250 none).2 = true :=
  ((Wait_true_iff_ready
      { ev := { fd0 := 3, fd1 := 4, type := EventWaitType.EventWaitSignal },
        chan := { pending := 1, nonblockRead := true, nonblockWrite := true },
        log := [], trace := [] } 250 none (by decide)).2.1).2 ⟨rfl, by decide⟩

/-- C1, as stated, fails: `Create` with `pipe` succeeding and `fcntl` on the
read end failing leaves a valid manual event (both ends present, `IsValid()`
true) with an empty channel whose read end is still blocking; on it `Set()`
does not leave one pending unit, it never returns: its `read` blocks. -/
theorem Set_blocks_after_failed_Create :
    (Event.Create { ev := Event.new, chan := newPipe, log := [], trace := [] }
        EventWaitType.EventWaitSignal (PipeResult.ok 3 4) (some 9) none).ev
      = { fd0 := 3, fd1 := 4, type := EventWaitType.EventWaitSignal } ∧
    (Event.Create { ev := Event.new, chan := newPipe, log := [], trace := [] }
        EventWaitType.EventWaitSignal (PipeResult.ok 3 4) (some 9) none).ev.IsValid = true ∧
    (Event.Create { ev := Event.new, chan := newPipe, log := [], trace := [] }
        EventWaitType.EventWaitSignal (PipeResult.ok 3 4) (some 9) none).chan
      = { pending := 0, nonblockRead := false, nonblockWrite := false } ∧
    Event.Set (Event.Create { ev := Event.new, chan := newPipe, log := [], trace := [] }
        EventWaitType.EventWaitSignal (PipeResult.ok 3 4) (some 9) none) none none = none := by
  decide

/-- C1, amended: take the event left by a successful `Create` (any state
before, any kind, any descriptors) and perform `Set()` calls on it whose reads
and writes are not failed by the kernel.  For every `n ≥ 1` and every `m` with
`1 ≤ m ≤ n`, the first `m` calls return, leave exactly one pending unit, and
`Test()` then returns true.  More generally `Set()` on a valid manual event
with `k` pending units whose read end is non-blocking, or with `k ≥ 1`, returns
and leaves `max k 1` pending units and the event as it was.  And in every state
reached from the successful `Create` by `Set` (write succeeding or failing),
`Reset` (whatever its reads do), `Test` and `Wait` calls the channel holds at
most one unit; such a sequence of calls does return when every `Reset` is
allowed 2 iterations. -/
theorem Set_coalesces (w0 : World) (kind : EventWaitType) (rd wr : Nat) (n : Nat)
    (w : World) (cs : List Call) :
    (1 ≤ n → ∀ m, 1 ≤ m → m ≤ n →
      ∃ wm, setN m (Event.Create w0 kind (PipeResult.ok rd wr) none none) = some wm ∧
        wm.chan.pending = 1 ∧ (Event.Test wm none).2 = true) ∧
    (w.ev.fd0 ≠ -1 → w.ev.fd1 ≠ -1 →
      (w.chan.nonblockRead = true ∨ 1 ≤ w.chan.pending) →
      ∃ w1, Event.Set w none none = some w1 ∧
        w1.chan.pending = max w.chan.pending 1 ∧ w1.ev = w.ev) ∧
    (∀ w2, runCalls (Event.Create w0 kind (PipeResult.ok rd wr) none none) cs = some w2 →
      w2.chan.pending ≤ 1) ∧
    (resetFuelAtLeast 2 cs = true →
      ∃ w2, runCalls (Event.Create w0 kind (PipeResult.ok rd wr) none none) cs = some w2) := by
  have hc0 : (Event.Create w0 kind (PipeResult.ok rd wr) none none).ev.fd0 ≠ -1 := by
    simp [Event.Create]
  have hc1 : (Event.Create w0 kind (PipeResult.ok rd wr) none none).ev.fd1 ≠ -1 := by
    simp [Event.Create]
  have hcn : (Event.Create w0 kind (PipeResult.ok rd wr) none none).chan.nonblockRead
      = true := by
    simp [Event.Create, newPipe]
  have hcp : (Event.Create w0 kind (PipeResult.ok rd wr) none none).chan.pending = 0 := by
    simp [Event.Create, newPipe]
  refine ⟨?_, ?_, ?_, ?_⟩
  · intro _ m hm _
    obtain ⟨wm, hs, hev, _, hp⟩ := setN_spec m _ hc0 hc1 hcn
    have hp1 : wm.chan.pending = 1 := by
      rw [hp, hcp]
      have : m ≠ 0 := by omega
      simp [this]
    refine ⟨wm, hs, hp1, ?_⟩
    rw [Test_eq_Wait, Wait_result]
    have hnull : wm.ev.IsNull = false := by
      rw [hev]
      simpa [Event.IsNull] using hc0
    simp [hnull, hp1]
  · intro h0 h1 hnb
    rcases hnb with hnb | hk
    · obtain ⟨w1, hs, hev, _, hp⟩ := Set_manual w none h0 h1 hnb
      refine ⟨w1, hs, ?_, hev⟩
      rw [hp]
      simp only [if_true]
      omega
    · obtain ⟨w1, hs, hev, hp⟩ := Set_manual_signaled w none h0 h1 hk
      refine ⟨w1, hs, ?_, hev⟩
      rw [hp]
      simp only [if_true]
      omega
  · intro w2 h
    exact (runCalls_inv cs _ w2 hcn (by omega) h).2.2
  · intro hf
    exact runCalls_total cs _ hcn (by omega) hf

/-- Witness for C1: three `Set()` calls on a freshly created event; a `Set()` on
an event holding two units; and a run of `Set`, `Set`, `Test`, `Reset`, a `Set`
whose write fails, and `Wait(5)`. -/
theorem Set_coalesces_witness :
    (∃ wm, setN 3 (Event.Create { ev := Event.new, chan := newPipe, log := [], trace := [] }
        EventWaitType.EventWaitSignal (PipeResult.ok 3 4) none none) = some wm ∧
      wm.chan.pending = 1 ∧ (Event.Test wm none).2 = true) ∧
    (∃ w1, Event.Set
        { ev := { fd0 := 3, fd1 := 4, type := EventWaitType.EventWaitSignal },
          chan := { pending := 2, nonblockRead := true, nonblockWrite := true },
          log := [], trace := [] } none none = some w1 ∧
      w1.chan.pending = 2 ∧
      w1.ev = { fd0 := 3, fd1 := 4, type := EventWaitType.EventWaitSignal }) ∧
    (∃ w2, runCalls (Event.Create { ev := Event.new, chan := newPipe, log := [], trace := [] }
        EventWaitType.EventWaitSignal (PipeResult.ok 3 4) none none)
        [Call.set none, Call.set none, Call.test none, Call.reset 2 (fun _ => none),
         Call.set (some 11), Call.wait 5 none] = some w2 ∧
      w2.chan.pending ≤ 1) :=
  have T := Set_coalesces { ev := Event.new, chan := newPipe, log := [], trace := [] }
    EventWaitType.EventWaitSignal 3 4 3
    { ev := { fd0 := 3, fd1 := 4, type := EventWaitType.EventWaitSignal },
      chan := { pending := 2, nonblockRead := true, nonblockWrite := true },
      log := [], trace := [] }
    [Call.set none, Call.set none, Call.test none, Call.reset 2 (fun _ => none),
     Call.set (some 11), Call.wait 5 none]
  ⟨T.1 (by decide) 3 (by decide) (by decide),
   T.2.1 (by decide) (by decide) (Or.inl rfl),
   match T.2.2.2 rfl with
   | ⟨w2, h⟩ => ⟨w2, h, T.2.2.1 w2 h⟩⟩

/-- C2, as stated, fails: on the valid manual event that `Create` leaves when
`pipe` succeeds and `fcntl` on the read end fails (both ends present,
`IsValid()` true, channel empty, read end still blocking), `Reset()` does not
terminate: whatever the bound on its loop, its first `read` never returns. -/
theorem Reset_blocks_after_failed_Create :
    (Event.Create { ev := Event.new, chan := newPipe, log := [], trace := [] }
        EventWaitType.EventWaitSignal (PipeResult.ok 3 4) (some 9) none).ev
      = { fd0 := 3, fd1 := 4, type := EventWaitType.EventWaitSignal } ∧
    (Event.Create { ev := Event.new, chan := newPipe, log := [], trace := [] }
        EventWaitType.EventWaitSignal (PipeResult.ok 3 4) (some 9) none).ev.IsValid = true ∧
    (Event.Create { ev := Event.new, chan := newPipe, log := [], trace := [] }
        EventWaitType.EventWaitSignal (PipeResult.ok 3 4) (some 9) none).chan
      = { pending := 0, nonblockRead := false, nonblockWrite := false } ∧
    ∀ fuel : Nat,
      Event.Reset (Event.Create { ev := Event.new, chan := newPipe, log := [], trace := [] }
        EventWaitType.EventWaitSignal (PipeResult.ok 3 4) (some 9) none) fuel (fun _ => none)
        = none := by
  refine ⟨by decide, by decide, by decide, ?_⟩
  intro fuel
  have hn : (Event.Create { ev := Event.new, chan := newPipe, log := [], trace := [] }
      EventWaitType.EventWaitSignal (PipeResult.ok 3 4) (some 9) none).ev.IsNull = false := by
    decide
  simp only [Event.Reset, hn]
  exact resetLoop_blocks (fun _ => none) (fun _ => rfl) fuel 0 0 _ (by decide) (by decide)

/-- C2, amended: on a valid manual event whose read end is non-blocking (as a
successful `Create` leaves it) and whose channel holds `k` pending units, a
`Reset()` whose reads are not failed by the kernel returns as soon as its loop
is allowed `k + 1` iterations: it has made `k` reads that consumed a unit each
and one that would block, the channel is empty, both ends, the kind and the log
are unchanged, and `Test()` then returns false. -/
theorem Reset_full_drain (w : World) (fuel : Nat) (rf : Nat → Option Int)
    (hv : w.ev.fd0 ≠ -1) (hm : w.ev.fd1 ≠ -1) (hnb : w.chan.nonblockRead = true)
    (hfuel : w.chan.pending < fuel) (hrf : ∀ m, m ≤ w.chan.pending → rf m = none) :
    Event.Reset w fuel rf = some
      { w with chan := { w.chan with pending := 0 },
               trace := w.trace ++ List.replicate w.chan.pending (SysCall.read w.ev.fd0 1 0)
                          ++ [SysCall.read w.ev.fd0 (-1) EAGAIN] } ∧
    ∀ pf : Option Int,
      (Event.Test
        { w with chan := { w.chan with pending := 0 },
                 trace := w.trace ++ List.replicate w.chan.pending (SysCall.read w.ev.fd0 1 0)
                            ++ [SysCall.read w.ev.fd0 (-1) EAGAIN] } pf).2 = false := by
  have _ := hm
  have hn : w.ev.IsNull = false := by simpa [Event.IsNull] using hv
  constructor
  · simp only [Event.Reset, hn]
    exact resetLoop_drain rf w.chan.pending fuel 0 0 w (by decide) rfl hnb hfuel
      (fun m hm1 => by simpa using hrf m hm1)
  · intro pf
    rw [Test_eq_Wait, Wait_result]
    simp

/-- Witness for C2: two units had accumulated. -/
theorem Reset_full_drain_witness :
    Event.Reset
      { ev := { fd0 := 3, fd1 := 4, type := EventWaitType.EventWaitSignal },
        chan := { pending := 2, nonblockRead := true, nonblockWrite := true },
        log := [], trace := [] } 3 (fun _ => none)
      = some
      { ev := { fd0 := 3, fd1 := 4, type := EventWaitType.EventWaitSignal },
        chan := { pending := 0, nonblockRead := true, nonblockWrite := true },
        log := [],
        trace := [SysCall.read 3 1 0, SysCall.read 3 1 0, SysCall.read 3 (-1) EAGAIN] } :=
  (Reset_full_drain
    { ev := { fd0 := 3, fd1 := 4, type := EventWaitType.EventWaitSignal },
      chan := { pending := 2, nonblockRead := true, nonblockWrite := true },
      log := [], trace := [] } 3 (fun _ => none)
    (by decide) (by decide) rfl (by decide) (fun _ _ => rfl)).1

/-- C3: for every state, every timeout and every behaviour of the poll, `Test()`
and `Wait(t)`, and any sequence of them, leave both ends, the kind and the
channel (pending units included) unchanged.  Consequently, after a `Set()` on a
manual event with a non-blocking read end (read and write not failed by the
kernel), any sequence of `Test()`/`Wait()` calls whose polls do not fail
returns true at every call. -/
theorem Test_Wait_level_triggered (w : World) (msecs : Nat) (pf : Option Int)
    (os : List Obs) :
    ((Event.Test w pf).1.ev = w.ev ∧ (Event.Test w pf).1.chan = w.chan) ∧
    ((Event.Wait w msecs pf).1.ev = w.ev ∧ (Event.Wait w msecs pf).1.chan = w.chan) ∧
    ((observe w os).1.ev = w.ev ∧ (observe w os).1.chan = w.chan) ∧
    (w.ev.fd0 ≠ -1 → w.ev.fd1 ≠ -1 → w.chan.nonblockRead = true →
      (∀ o, o ∈ os → o.pf = none) →
      ∃ w1, Event.Set w none none = some w1 ∧
        (observe w1 os).2 = List.replicate os.length true) := by
  refine ⟨?_, Wait_ev w msecs pf, observe_frame os w, ?_⟩
  · rw [Test_eq_Wait]
    exact Wait_ev w 0 pf
  · intro h0 h1 hnb hpf
    obtain ⟨w1, hs, hev, _, hp⟩ := Set_manual w none h0 h1 hnb
    refine ⟨w1, hs, observe_signaled os w1 (by rw [hev]; exact h0) ?_ hpf⟩
    rw [hp]
    simp

/-- Witness for C3: `Set()` on an unsignaled event, then `Test`, `Wait(100)`,
`Test`. -/
theorem Test_Wait_level_triggered_witness :
    ∃ w1, Event.Set
        { ev := { fd0 := 3, fd1 := 4, type := EventWaitType.EventWaitSignal },
          chan := { pending := 0, nonblockRead := true, nonblockWrite := true },
          log := [], trace := [] } none none = some w1 ∧
      (observe w1 [Obs.test none, Obs.wait 100 none, Obs.test none]).2
        = List.replicate 3 true :=
  (Test_Wait_level_triggered
    { ev := { fd0 := 3, fd1 := 4, type := EventWaitType.EventWaitSignal },
      chan := { pending := 0, nonblockRead := true, nonblockWrite := true },
      log := [], trace := [] } 0 none
    [Obs.test none, Obs.wait 100 none, Obs.test none]).2.2.2
    (by decide) (by decide) rfl (by decide)

/-- Witness for C6: a `Set()` that changes the channel, on an event with both
ends present. -/
theorem Set_readonly_rejected_witness :
    Event.Set
        { ev := { fd0 := 3, fd1 := 4, type := EventWaitType.EventWaitSignal },
          chan := { pending := 0, nonblockRead := true, nonblockWrite := true },
          log := [], trace := [] } none none
      = some
        { ev := { fd0 := 3, fd1 := 4, type := EventWaitType.EventWaitSignal },
          chan := { pending := 1, nonblockRead := true, nonblockWrite := true },
          log := [],
          trace := [SysCall.read 3 (-1) EAGAIN, SysCall.write 4 1] } ∧
    ((3 : Int) ≠ -1 ∧ (4 : Int) ≠ -1) :=
  ⟨by decide,
   (Set_readonly_rejected 5 EventWaitType.EventWaitRead newPipe [] [] none none
    { ev := { fd0 := 3, fd1 := 4, type := EventWaitType.EventWaitSignal },
      chan := { pending := 0, nonblockRead := true, nonblockWrite := true },
      log := [], trace := [] }
    { ev := { fd0 := 3, fd1 := 4, type := EventWaitType.EventWaitSignal },
      chan := { pending := 1, nonblockRead := true, nonblockWrite := true },
      log := [],
      trace := [SysCall.read 3 (-1) EAGAIN, SysCall.write 4 1] }).2
    (by decide) (by decide)⟩

/-- C9, as stated, fails: with two units pending, a first read that fails with
`errno = 5` (not `EAGAIN`) is reported and ends the loop of `Reset()`; that
read is the only one made, and both units stay in the channel. -/
theorem Reset_aborts_on_read_failure :
    (5 : Int) ≠ EAGAIN ∧
    Event.Reset
      { ev := { fd0 := 3, fd1 := 4, type := EventWaitType.EventWaitSignal },
        chan := { pending := 2, nonblockRead := true, nonblockWrite := true },
        log := [], trace := [] } 10 (fun i => if i = 0 then some 5 else none)
      = some
      { ev := { fd0 := 3, fd1 := 4, type := EventWaitType.EventWaitSignal },
        chan := { pending := 2, nonblockRead := true, nonblockWrite := true },
        log := [LogMsg.resetReadFailed 5],
        trace := [SysCall.read 3 (-1) 5] } := by
  decide

/-- C9, amended: in the loop of `Reset()` on a valid event, a read failure other
than "would block" is reported and ends the loop.  If the first `j` reads each
consume a unit and the next one fails with an `errno` other than `EAGAIN`, then
`Reset()` returns after exactly these `j + 1` reads, with one report, and the
units not yet consumed stay in the channel. -/
theorem Reset_stops_at_read_failure (w : World) (fuel j : Nat) (rf : Nat → Option Int)
    (e : Int) (hv : w.ev.fd0 ≠ -1) (hj : j ≤ w.chan.pending) (hfuel : j < fuel)
    (hnone : ∀ m, m < j → rf m = none) (hrf : rf j = some e) (he : e ≠ EAGAIN) :
    Event.Reset w fuel rf = some
      { w with chan := { w.chan with pending := w.chan.pending - j },
               trace := w.trace ++ List.replicate j (SysCall.read w.ev.fd0 1 0)
                          ++ [SysCall.read w.ev.fd0 (-1) e],
               log := w.log ++ [LogMsg.resetReadFailed e] } := by
  have hn : w.ev.IsNull = false := by simpa [Event.IsNull] using hv
  simp only [Event.Reset, hn]
  have h := resetLoop_fault rf j fuel 0 0 w e (by decide) hj hfuel
    (fun m hm => by simpa using hnone m hm) (by simpa using hrf)
  simpa [he] using h

/-- Witness for C9, amended: one unit is consumed, then a read fails with
`errno = 4`. -/
theorem Reset_stops_at_read_failure_witness :
    Event.Reset
      { ev := { fd0 := 3, fd1 := 4, type := EventWaitType.EventWaitSignal },
        chan := { pending := 3, nonblockRead := true, nonblockWrite := true },
        log := [], trace := [] } 2 (fun i => if i = 1 then some 4 else none)
      = some
      { ev := { fd0 := 3, fd1 := 4, type := EventWaitType.EventWaitSignal },
        chan := { pending := 2, nonblockRead := true, nonblockWrite := true },
        log := [LogMsg.resetReadFailed 4],
        trace := [SysCall.read 3 1 0, SysCall.read 3 (-1) 4] } :=
  Reset_stops_at_read_failure
    { ev := { fd0 := 3, fd1 := 4, type := EventWaitType.EventWaitSignal },
      chan := { pending := 3, nonblockRead := true, nonblockWrite := true },
      log := [], trace := [] } 2 1 (fun i => if i = 1 then some 4 else none) 4
    (by decide) (by decide) (by decide)
    (fun m hm => by
      have : m = 0 := by omega
      subst this
      rfl)
    rfl (by decide)

end kNet
